import Mathlib

/-!
Shallow embedding, in Lean 4, of the feature-derivation core of the
contract_features repository (src/app/services.py, src/app/utils.py,
src/app/models.py), together with theorems settling the frozen claims
about its specification.

Modelling conventions:
* Python `datetime` values are timezone-naive and are embedded as an `Int`
  count of microseconds since 0001-01-01T00:00:00 (Python's own resolution).
* Python numbers (`int` and `float`) are embedded as exact rationals `ℚ`.
  Binary floating-point rounding is outside the model, and the IEEE
  specials that `json.loads` accepts (`NaN`, `Infinity`, `-Infinity`)
  decode to the documented nonzero stand-in `jsonSpecial`, which preserves
  everything this program consumes of them: truthiness, numeric type,
  hashability and non-iterability.  Only the loan-summation arithmetic
  would see their `nan`/`inf` values, and no claim states those sums.
* JSON values as produced by `json.loads` are embedded as the inductive
  `JValue`; Python dicts keep their JSON key/value association lists
  (lookup takes the last binding, as later duplicate JSON keys win).
* Fallible Python code is embedded with `Option`/`Except`: an uncaught
  `TypeError` is the `Except.error PyErr.typeError` outcome.
* `datetime.now()` (the fallback for malformed application dates) is taken
  as an explicit `now : Int` parameter of `calculate_features`.

All recursion is structural (fuelled where needed), so every definition
evaluates by kernel reduction on concrete inputs.
-/

set_option maxRecDepth 10000

namespace ContractFeatures

/-! ## Calendar arithmetic

Proleptic Gregorian calendar, as used by Python `datetime.date`.
Day number 0 is 0001-01-01 (Python ordinal 1). -/

/-- Leap-year test of the Gregorian calendar. -/
def isLeap (y : Nat) : Bool :=
  y % 4 == 0 && (y % 100 != 0 || y % 400 == 0)

/-- Length in days of month `m` (1-12) of year `y`. -/
def monthLen (y m : Nat) : Nat :=
  if m = 2 then (if isLeap y then 29 else 28)
  else if m = 4 ∨ m = 6 ∨ m = 9 ∨ m = 11 then 30
  else 31

/-- Days in year `y` strictly before the first day of month `m`. -/
def daysBeforeMonth (y m : Nat) : Nat :=
  (List.range (m - 1)).foldl (fun acc i => acc + monthLen y (i + 1)) 0

/-- Day number of the calendar date `y-m-d` (0001-01-01 is day 0). -/
def dayNumber (y m d : Nat) : Nat :=
  365 * (y - 1) + (y - 1) / 4 - (y - 1) / 100 + (y - 1) / 400
    + daysBeforeMonth y m + (d - 1)

/-- Microseconds per day, the resolution of Python `datetime`. -/
def usecPerDay : Int := 86400000000

/-- Naive datetime at midnight of `y-m-d`, in microseconds since day 0. -/
def usecOfDate (y m d : Nat) : Int :=
  (dayNumber y m d : Int) * usecPerDay

/-- Naive datetime `y-m-d h:mi:s` plus `us` microseconds. -/
def usecOfDateTime (y m d h mi s us : Nat) : Int :=
  usecOfDate y m d + ((h * 3600 + mi * 60 + s : Nat) : Int) * 1000000 + (us : Int)

/-! ## Character/string helpers shared by the embedded parsers -/

/-- Split a character list on a separator, like Python `str.split(sep)`
for a one-character separator: `n` separators yield `n + 1` parts. -/
def splitChar (sep : Char) : List Char → List (List Char)
  | [] => [[]]
  | c :: rest =>
    let r := splitChar sep rest
    if c = sep then [] :: r
    else
      match r with
      | [] => [[c]]
      | h :: t => (c :: h) :: t

/-- ASCII decimal digit test (CPython's `\d` on the inputs we model). -/
def isDigitChar (c : Char) : Bool := c.isDigit

/-- All characters are ASCII digits. -/
def allDigits (cs : List Char) : Bool := cs.all isDigitChar

/-- Numeric value of a digit string, most significant first. -/
def digitsVal (cs : List Char) : Nat :=
  cs.foldl (fun n c => 10 * n + (c.toNat - 48)) 0

/-! ## utils.parse_date (src/app/utils.py)

`parse_date` splits the input on `'.'`, expects exactly 3 parts, rebuilds
the string `parts[2] ++ "-" ++ parts[1] ++ "-" ++ parts[0]` and feeds it to
`datetime.strptime(_, "%Y-%m-%d")`. CPython's `_strptime` compiles that
format to the anchored regex `\d\d\d\d - (1[0-2]|0[1-9]|[1-9]) -
(3[01]|[12]\d|0[1-9]|[1-9])` (whole string must match) and then builds a
`datetime`, which additionally rejects year 0 and a day beyond the month
length. -/

/-- Match of the `%Y` pattern `\d\d\d\d`: exactly four digits. -/
def matchYear4 (cs : List Char) : Option Nat :=
  if cs.length = 4 ∧ allDigits cs then some (digitsVal cs) else none

/-- Match of the `%m` pattern `1[0-2]|0[1-9]|[1-9]` against a whole
segment: a one- or two-digit string whose value is 1-12.  (With regex
backtracking, an alternative shorter by one digit would have to be
followed by the literal `-`, which a digit never is, so ordered
alternation over a whole dash-free segment is exactly this test.) -/
def matchMonthPart (cs : List Char) : Option Nat :=
  if (cs.length = 1 ∨ cs.length = 2) ∧ allDigits cs
      ∧ 1 ≤ digitsVal cs ∧ digitsVal cs ≤ 12 then
    some (digitsVal cs)
  else none

/-- Match of the `%d` pattern `3[01]|[12]\d|0[1-9]|[1-9]` against a whole
segment: a one- or two-digit string whose value is 1-31. -/
def matchDayPart (cs : List Char) : Option Nat :=
  if (cs.length = 1 ∨ cs.length = 2) ∧ allDigits cs
      ∧ 1 ≤ digitsVal cs ∧ digitsVal cs ≤ 31 then
    some (digitsVal cs)
  else none

/-- `time.strptime` on format `"%Y-%m-%d"`: the compiled regex is anchored
on both sides and its groups are digit-only, so a string matches exactly
when it splits on `'-'` into three segments accepted by the three group
patterns. -/
def strptimeYmd (cs : List Char) : Option (Nat × Nat × Nat) :=
  match splitChar '-' cs with
  | [ys, ms, ds] =>
    (matchYear4 ys).bind fun y =>
      (matchMonthPart ms).bind fun m =>
        (matchDayPart ds).map fun d => (y, m, d)
  | _ => none

/-- Embedding of `utils.parse_date`: `None` for an empty string, split on
`'.'`, require 3 parts, reassemble as `YYYY-MM-DD`, parse with `strptime`,
and let the `datetime` constructor reject year 0 and out-of-range days.
Any failure is caught and becomes `none`. -/
def parse_date (s : String) : Option Int :=
  if s.data.isEmpty then none
  else
    match splitChar '.' s.data with
    | [dd, mm, yy] =>
      match strptimeYmd (yy ++ '-' :: (mm ++ '-' :: dd)) with
      | some (y, m, d) =>
        if 1 ≤ y ∧ d ≤ monthLen y m then some (usecOfDate y m d) else none
      | none => none
    | _ => none

/-- Validity of a calendar triple as Python `datetime(y, m, d)` accepts it. -/
abbrev validCalendar (y m d : Nat) : Prop :=
  1 ≤ y ∧ 1 ≤ m ∧ m ≤ 12 ∧ 1 ≤ d ∧ d ≤ monthLen y m

/-- Claim-side formalisation of C7, following the spec words only: the
result is `none` exactly for an empty input, a split that does not give 3
parts, or parts that do not form a valid calendar date; otherwise the
midnight datetime of that calendar date. -/
def parse_date_claim (s : String) : Option Int :=
  if s.data.isEmpty then none
  else
    match splitChar '.' s.data with
    | [dd, mm, yy] =>
      if allDigits dd ∧ ¬ dd.isEmpty ∧ allDigits mm ∧ ¬ mm.isEmpty
          ∧ allDigits yy ∧ ¬ yy.isEmpty
          ∧ validCalendar (digitsVal yy) (digitsVal mm) (digitsVal dd) then
        some (usecOfDate (digitsVal yy) (digitsVal mm) (digitsVal dd))
      else none
    | _ => none

/-- Amendment of `parse_date_claim` forced by the code: the year part must
additionally be exactly four digits and the day and month parts at most
two digits each. -/
def parse_date_amended (s : String) : Option Int :=
  if s.data.isEmpty then none
  else
    match splitChar '.' s.data with
    | [dd, mm, yy] =>
      if allDigits dd ∧ (dd.length = 1 ∨ dd.length = 2)
          ∧ allDigits mm ∧ (mm.length = 1 ∨ mm.length = 2)
          ∧ allDigits yy ∧ yy.length = 4
          ∧ validCalendar (digitsVal yy) (digitsVal mm) (digitsVal dd) then
        some (usecOfDate (digitsVal yy) (digitsVal mm) (digitsVal dd))
      else none
    | _ => none

/-! ## JSON values and `json.loads`

`JValue` is the image of Python's `json.loads`: `None`, `bool`, numbers
(`int`/`float`, embedded as exact `ℚ`), `str`, `list` and `dict`.  Dicts
are kept as their textual key/value lists; lookup takes the last binding
so that duplicate JSON keys behave as in Python (last wins). -/

inductive JValue where
  | null
  | bool (b : Bool)
  | num (q : ℚ)
  | str (s : String)
  | arr (xs : List JValue)
  | obj (kvs : List (String × JValue))

/-- Rational addition through `Rat.normalize` (definitionally computable,
unlike the `irreducible` `Rat.add`); proved equal to `+` below. -/
def qadd (a b : ℚ) : ℚ :=
  Rat.normalize (a.num * (b.den : Int) + b.num * (a.den : Int)) (a.den * b.den)
    (Nat.mul_ne_zero a.den_nz b.den_nz)

theorem qadd_eq (a b : ℚ) : qadd a b = a + b := by
  rw [Rat.add_def]; rfl

/-- Exact value of the JSON number `± mant · 10 ^ (exp − fracLen)`. -/
def qOfParts (neg : Bool) (mant : Nat) (fracLen : Nat) (exp : Int) : ℚ :=
  let m : Int := if neg then -(mant : Int) else (mant : Int)
  let t : Int := exp - (fracLen : Int)
  if 0 ≤ t then ((m * 10 ^ t.toNat : Int) : ℚ)
  else Rat.normalize m (10 ^ (-t).toNat) (pow_ne_zero _ (by norm_num))

/-- Opening brace character (written by code point to keep JSON examples
readable in string literals elsewhere). -/
def lbrace : Char := Char.ofNat 123

/-- Closing brace character. -/
def rbrace : Char := Char.ofNat 125

/-- JSON whitespace skipping (space, tab, LF, CR), as in RFC 8259 and
Python's `json` scanner. -/
def skipWs : List Char → List Char
  | [] => []
  | c :: rest =>
    if c = ' ' ∨ c = '\t' ∨ c = '\n' ∨ c = '\r' then skipWs rest else c :: rest

/-- Consume an expected literal character sequence. -/
def expectChars : List Char → List Char → Option (List Char)
  | [], cs => some cs
  | e :: es, c :: cs => if c = e then expectChars es cs else none
  | _ :: _, [] => none

/-- Hexadecimal digit value, or `none`. -/
def hexVal (c : Char) : Option Nat :=
  if c.isDigit then some (c.toNat - 48)
  else if 97 ≤ c.toNat ∧ c.toNat ≤ 102 then some (c.toNat - 87)
  else if 65 ≤ c.toNat ∧ c.toNat ≤ 70 then some (c.toNat - 55)
  else none

/-- Take a maximal run of ASCII digits. -/
def takeDigits : List Char → (List Char × List Char)
  | [] => ([], [])
  | c :: rest =>
    if isDigitChar c then
      let (ds, r) := takeDigits rest
      (c :: ds, r)
    else ([], c :: rest)

/-- Stand-in finite rational for the IEEE specials `NaN`, `Infinity` and
`-Infinity`, which Python's `json.loads` accepts by default (`-Infinity`
decodes to the negated stand-in).  All three are truthy floats: nonzero,
not iterable, not strings, hashable, and not in the excluded-bank set —
the only properties of a decoded number this program's control flow ever
consumes.  Their `nan`/`inf` arithmetic inside the loan summation is the
one thing the exact-rational stand-in does not reproduce, and no claim
states a loan sum over parser output. -/
def jsonSpecial : ℚ := ((10 ^ 400 : Int) : ℚ)

/-- JSON number grammar of Python `json.loads`: the RFC 8259 numbers
`-? (0 | [1-9][0-9]*) (\.[0-9]+)? ([eE][-+]?[0-9]+)?` as exact rationals,
plus the non-standard constants `NaN`, `Infinity` and `-Infinity`
(case-sensitive) that the CPython scanner accepts in any value position,
decoded to `jsonSpecial`.  Returns the value and the rest of the
input. -/
def parseNumber (cs : List Char) : Option (ℚ × List Char) :=
  match cs with
  | 'N' :: r =>
    (expectChars ['a', 'N'] r).map fun r2 => (jsonSpecial, r2)
  | 'I' :: r =>
    (expectChars ['n', 'f', 'i', 'n', 'i', 't', 'y'] r).map fun r2 =>
      (jsonSpecial, r2)
  | '-' :: 'I' :: r =>
    (expectChars ['n', 'f', 'i', 'n', 'i', 't', 'y'] r).map fun r2 =>
      (-jsonSpecial, r2)
  | _ =>
  let signAndRest : Bool × List Char :=
    match cs with
    | '-' :: r => (true, r)
    | _ => (false, cs)
  let neg := signAndRest.1
  match takeDigits signAndRest.2 with
  | ([], _) => none
  | (intDs, rest1) =>
    if intDs.length > 1 ∧ intDs.headD '0' = '0' then none
    else
      let (fracDs, rest2) := match rest1 with
        | '.' :: r =>
          match takeDigits r with
          | ([], _) => ([], '.' :: r)
          | (ds, r2) => (ds, r2)
        | _ => ([], rest1)
      if rest2.length + 1 = rest1.length ∧ fracDs.isEmpty then none
      else
        match rest2 with
        | e :: r3 =>
          if e = 'e' ∨ e = 'E' then
            let (eneg, r4) := match r3 with
              | '-' :: r5 => (true, r5)
              | '+' :: r5 => (false, r5)
              | _ => (false, r3)
            match takeDigits r4 with
            | ([], _) => none
            | (expDs, rest3) =>
              let ev : Int := if eneg then -(digitsVal expDs : Int) else (digitsVal expDs : Int)
              some (qOfParts neg (digitsVal (intDs ++ fracDs)) fracDs.length ev,
                    rest3)
          else
            some (qOfParts neg (digitsVal (intDs ++ fracDs)) fracDs.length 0, rest2)
        | [] => some (qOfParts neg (digitsVal (intDs ++ fracDs)) fracDs.length 0, [])

/-- Body of a JSON string after the opening quote: plain characters,
`\"`,`\\`,`\/`,`\b`,`\f`,`\n`,`\r`,`\t` and `\uXXXX` escapes; raw control
characters are rejected (strict mode).  Surrogate pairs are not recombined
(a model simplification no claim exercises). -/
def parseStringBody : Nat → List Char → Option (List Char × List Char)
  | 0, _ => none
  | _ + 1, [] => none
  | fuel + 1, c :: rest =>
    if c = '"' then some ([], rest)
    else if c = '\\' then
      match rest with
      | [] => none
      | e :: rest2 =>
        let esc : Option (Char × List Char) :=
          if e = '"' then some ('"', rest2)
          else if e = '\\' then some ('\\', rest2)
          else if e = '/' then some ('/', rest2)
          else if e = 'b' then some (Char.ofNat 8, rest2)
          else if e = 'f' then some (Char.ofNat 12, rest2)
          else if e = 'n' then some ('\n', rest2)
          else if e = 'r' then some ('\r', rest2)
          else if e = 't' then some ('\t', rest2)
          else if e = 'u' then
            match rest2 with
            | h1 :: h2 :: h3 :: h4 :: rest3 =>
              match hexVal h1, hexVal h2, hexVal h3, hexVal h4 with
              | some a, some b, some c2, some d =>
                some (Char.ofNat (((a * 16 + b) * 16 + c2) * 16 + d), rest3)
              | _, _, _, _ => none
            | _ => none
          else none
        match esc with
        | some (ch, r) =>
          (parseStringBody fuel r).map fun (s, r2) => (ch :: s, r2)
        | none => none
    else if c.toNat < 32 then none
    else (parseStringBody fuel rest).map fun (s, r2) => (c :: s, r2)

mutual

/-- Recursive-descent JSON value parser (the embedding of Python's
`json.loads` grammar), fuelled to keep all recursion structural. -/
def parseValue : Nat → List Char → Option (JValue × List Char)
  | 0, _ => none
  | fuel + 1, cs =>
    match skipWs cs with
    | [] => none
    | c :: rest =>
      if c = 'n' then
        (expectChars ['u', 'l', 'l'] rest).map fun r => (JValue.null, r)
      else if c = 't' then
        (expectChars ['r', 'u', 'e'] rest).map fun r => (JValue.bool true, r)
      else if c = 'f' then
        (expectChars ['a', 'l', 's', 'e'] rest).map fun r => (JValue.bool false, r)
      else if c = '"' then
        (parseStringBody (fuel + 1) rest).map fun (s, r) =>
          (JValue.str (String.mk s), r)
      else if c = '[' then
        match skipWs rest with
        | ']' :: r2 => some (JValue.arr [], r2)
        | _ =>
          (parseArrayItems fuel rest).map fun (xs, r) => (JValue.arr xs, r)
      else if c = lbrace then
        match skipWs rest with
        | c2 :: r2 =>
          if c2 = rbrace then some (JValue.obj [], r2)
          else (parseObjItems fuel rest).map fun (kvs, r) => (JValue.obj kvs, r)
        | [] => none
      else
        (parseNumber (c :: rest)).map fun (q, r) => (JValue.num q, r)

/-- Comma-separated JSON array items up to the closing bracket. -/
def parseArrayItems : Nat → List Char → Option (List JValue × List Char)
  | 0, _ => none
  | fuel + 1, cs =>
    (parseValue fuel cs).bind fun (v, r) =>
      match skipWs r with
      | ',' :: r2 =>
        (parseArrayItems fuel r2).map fun (vs, r3) => (v :: vs, r3)
      | ']' :: r2 => some ([v], r2)
      | _ => none

/-- Comma-separated JSON object members up to the closing brace. -/
def parseObjItems : Nat → List Char → Option (List (String × JValue) × List Char)
  | 0, _ => none
  | fuel + 1, cs =>
    match skipWs cs with
    | '"' :: r =>
      (parseStringBody (fuel + 1) r).bind fun (k, r2) =>
        match skipWs r2 with
        | ':' :: r3 =>
          (parseValue fuel r3).bind fun (v, r4) =>
            match skipWs r4 with
            | ',' :: r5 =>
              (parseObjItems fuel r5).map fun (kvs, r6) =>
                ((String.mk k, v) :: kvs, r6)
            | c :: r5 =>
              if c = rbrace then some ([(String.mk k, v)], r5) else none
            | [] => none
        | _ => none
    | _ => none

end

/-- Embedding of `json.loads` on a string: parse one value, then require
only trailing whitespace. -/
def json_loads (s : String) : Option JValue :=
  match parseValue (2 * s.data.length + 2) s.data with
  | some (v, rest) => if (skipWs rest).isEmpty then some v else none
  | none => none

/-! ## Python value semantics on `JValue` -/

/-- Python truthiness of a decoded JSON value (`bool(v)`). -/
def pyTruthy : JValue → Bool
  | .null => false
  | .bool b => b
  | .num q => q != 0
  | .str s => !s.data.isEmpty
  | .arr xs => !xs.isEmpty
  | .obj kvs => !kvs.isEmpty

/-- Python `dict.get(k)` on the decoded member list: the last binding of a
duplicated JSON key wins, `None` (here `none`) when absent. -/
def jget (kvs : List (String × JValue)) (k : String) : Option JValue :=
  kvs.foldl (fun acc p => if p.1 = k then some p.2 else acc) none

/-- Truthiness of a `dict.get` result (`None` when absent is falsy). -/
def pyTruthyOpt : Option JValue → Bool
  | none => false
  | some v => pyTruthy v

/-- Keys of a Python dict built from the member list: first-occurrence
order, duplicates collapsed. -/
def dictKeys (kvs : List (String × JValue)) : List String :=
  kvs.foldl (fun acc p => if acc.contains p.1 then acc else acc ++ [p.1]) []

/-- Python iteration `for x in v`: lists yield their items, strings their
characters (as 1-character strings), dicts their keys; `None`, numbers and
booleans are not iterable — a `TypeError`, modelled as `none`. -/
def pyIterate : JValue → Option (List JValue)
  | .arr xs => some xs
  | .str s => some (s.data.map fun c => JValue.str c.toString)
  | .obj kvs => some ((dictKeys kvs).map JValue.str)
  | .null => none
  | .bool _ => none
  | .num _ => none

/-- Python `float(s)` on a string: optional surrounding whitespace,
optional sign, then digits with an optional fractional part (at least one
digit overall) and an optional exponent.  (`inf`/`nan` spellings and digit
underscores are outside the model; no claim exercises them.) -/
def floatOfString (s : String) : Option ℚ :=
  let cs := skipWs s.data
  let signAndRest : Bool × List Char :=
    match cs with
    | '-' :: r => (true, r)
    | '+' :: r => (false, r)
    | _ => (false, cs)
  let neg := signAndRest.1
  let (intDs, r1) := takeDigits signAndRest.2
  let (fracDs, r2) := match r1 with
    | '.' :: r => takeDigits r
    | _ => ([], r1)
  if intDs.isEmpty ∧ fracDs.isEmpty then none
  else
    let fin : Int → Option ℚ := fun ev =>
      some (qOfParts neg (digitsVal (intDs ++ fracDs)) fracDs.length ev)
    match r2 with
    | [] => fin 0
    | e :: r3 =>
      if e = 'e' ∨ e = 'E' then
        let (eneg, r4) := match r3 with
          | '-' :: r5 => (true, r5)
          | '+' :: r5 => (false, r5)
          | _ => (false, r3)
        match takeDigits r4 with
        | ([], _) => none
        | (expDs, r5) =>
          if (skipWs r5).isEmpty then
            fin (if eneg then -(digitsVal expDs : Int) else (digitsVal expDs : Int))
          else none
      else if (skipWs (e :: r3)).isEmpty then fin 0
      else none

/-- Python `float(v)` on a decoded JSON value: numbers pass through, bools
become 0/1, strings go through `floatOfString`; `None`, lists and dicts
raise `TypeError` (always caught at the use sites, hence `none`). -/
def pyFloat : JValue → Option ℚ
  | .num q => some q
  | .bool b => some (if b then 1 else 0)
  | .str s => floatOfString s
  | .null => none
  | .arr _ => none
  | .obj _ => none

/-! ## Data models (src/app/models.py) -/

/-- `models.ApplicationData`: id, ISO application date string, optional
JSON contracts string (`Optional[str]`, `None` when absent). -/
structure ApplicationData where
  id : ℚ
  application_date : String
  contracts : Option String

/-- `models.FeatureResponse`: the three derived features plus the echoed
id. -/
structure FeatureResponse where
  id : ℚ
  tot_claim_cnt_l180d : Int
  disb_bank_loan_wo_tbc : ℚ
  day_sinlastloan : Int
deriving DecidableEq, Repr

/-- Uncaught Python exceptions reachable in the embedded code. -/
inductive PyErr where
  | typeError
deriving DecidableEq, Repr

instance {ε α : Type} [DecidableEq ε] [DecidableEq α] :
    DecidableEq (Except ε α) := fun a b =>
  match a, b with
  | .ok x, .ok y =>
    match decEq x y with
    | isTrue h => isTrue (h ▸ rfl)
    | isFalse h => isFalse fun hh => h (Except.ok.inj hh)
  | .error x, .error y =>
    match decEq x y with
    | isTrue h => isTrue (h ▸ rfl)
    | isFalse h => isFalse fun hh => h (Except.error.inj hh)
  | .ok _, .error _ => isFalse fun hh => Except.noConfusion hh
  | .error _, .ok _ => isFalse fun hh => Except.noConfusion hh

/-! ## Application-date parsing (services._parse_application_date)

`datetime.fromisoformat` is embedded for the extended ISO-8601 shapes the
spec names: `YYYY-MM-DD`, optionally a one-character separator and
`HH[:MM[:SS[.ffffff]]]`, optionally a numeric UTC offset `±HH[:MM]` (the
offset is validated and then discarded, as `replace(tzinfo=None)` strips
it without conversion). -/

/-- Read exactly `n` ASCII digits, accumulating their value. -/
def readNDigitsAux : Nat → Nat → List Char → Option (Nat × List Char)
  | 0, acc, cs => some (acc, cs)
  | n + 1, acc, c :: cs =>
    if isDigitChar c then readNDigitsAux n (10 * acc + (c.toNat - 48)) cs
    else none
  | _ + 1, _, [] => none

/-- Accept an optional trailing UTC offset `±HH[:MM]` and the end of the
input. -/
def offsetEnd (cs : List Char) : Bool :=
  match cs with
  | [] => true
  | sign :: r =>
    (sign = '+' ∨ sign = '-') &&
      match readNDigitsAux 2 0 r with
      | some (hh, []) => hh ≤ 23
      | some (hh, ':' :: r2) =>
        (match readNDigitsAux 2 0 r2 with
         | some (mm, []) => hh ≤ 23 && mm ≤ 59
         | _ => false)
      | _ => false

/-- Fractional seconds `.d{1,6}` (or comma) in microseconds, then an
optional offset and the end of the input. -/
def fracOffsetEnd (cs : List Char) : Option Int :=
  match takeDigits cs with
  | ([], _) => none
  | (ds, r) =>
    if ds.length ≤ 6 ∧ offsetEnd r then
      some ((digitsVal ds * 10 ^ (6 - ds.length) : Nat) : Int)
    else none

/-- Time-of-day part of `fromisoformat` after the separator. -/
def parseTimePart (dayStart : Int) (cs : List Char) : Option Int :=
  match readNDigitsAux 2 0 cs with
  | some (h, r) =>
    if h ≤ 23 then
      match r with
      | ':' :: r2 =>
        (match readNDigitsAux 2 0 r2 with
         | some (mi, r3) =>
           if mi ≤ 59 then
             match r3 with
             | ':' :: r4 =>
               (match readNDigitsAux 2 0 r4 with
                | some (s, r5) =>
                  if s ≤ 59 then
                    match r5 with
                    | '.' :: r6 =>
                      (fracOffsetEnd r6).map fun us =>
                        usecOfDateTime 0 0 0 h mi s 0 + dayStart + us
                    | ',' :: r6 =>
                      (fracOffsetEnd r6).map fun us =>
                        usecOfDateTime 0 0 0 h mi s 0 + dayStart + us
                    | _ =>
                      if offsetEnd r5 then
                        some (usecOfDateTime 0 0 0 h mi s 0 + dayStart)
                      else none
                  else none
                | none => none)
             | _ =>
               if offsetEnd r3 then
                 some (usecOfDateTime 0 0 0 h mi 0 0 + dayStart)
               else none
           else none
         | none => none)
      | _ =>
        if offsetEnd r then some (usecOfDateTime 0 0 0 h 0 0 0 + dayStart)
        else none
    else none
  | none => none

/-- Embedded `datetime.fromisoformat` (on the subset described above),
returning the naive datetime with any offset stripped, or `none` on a
parse failure (`ValueError`). -/
def parse_iso (cs : List Char) : Option Int :=
  match readNDigitsAux 4 0 cs with
  | some (y, '-' :: r1) =>
    (match readNDigitsAux 2 0 r1 with
     | some (mo, '-' :: r2) =>
       (match readNDigitsAux 2 0 r2 with
        | some (dy, r3) =>
          if 1 ≤ y ∧ 1 ≤ mo ∧ mo ≤ 12 ∧ 1 ≤ dy ∧ dy ≤ monthLen y mo then
            match r3 with
            | [] => some (usecOfDate y mo dy)
            | _ :: r4 => parseTimePart (usecOfDate y mo dy) r4
          else none
        | none => none)
     | _ => none)
  | _ => none

/-- Python `date_str.replace('Z', '+00:00')` (every occurrence). -/
def replaceZ : List Char → List Char
  | [] => []
  | c :: rest =>
    if c = 'Z' then '+' :: '0' :: '0' :: ':' :: '0' :: '0' :: replaceZ rest
    else c :: replaceZ rest

/-- Embedding of `services._parse_application_date`: normalise `Z`, parse
as ISO, strip the offset; on any failure fall back to the current
wall-clock time, passed in as `now`. -/
def _parse_application_date (now : Int) (date_str : String) : Int :=
  match parse_iso (replaceZ date_str.data) with
  | some dt => dt
  | none => now

/-! ## Contract-list parsing (services._parse_contracts) -/

/-- Embedding of `services._parse_contracts` on the pydantic-typed field
`contracts : Optional[str]` (the `isinstance(contracts_data, list)` branch
is unreachable for this input type): falsy input gives `[]`, then
`json.loads` with every decoding error caught and turned into `[]`.  Note
that a *successful* decode is returned as-is, whatever its type. -/
def _parse_contracts (contracts_data : Option String) : JValue :=
  match contracts_data with
  | none => .arr []
  | some s =>
    if s.data.isEmpty then .arr []
    else
      match json_loads s with
      | some v => v
      | none => .arr []

/-! ## Recent-claims counter (services._calculate_recent_claims) -/

/-- `parse_date` applied to a decoded JSON value, as the Python code does:
non-string values are either falsy (rejected by the emptiness guard) or
lack `.split`, raising `AttributeError`, which `parse_date` catches — both
give `None`. -/
def parse_date_v : JValue → Option Int
  | .str s => parse_date s
  | _ => none

/-- Per-entry predicate of the recent-claims sum: a dict entry whose
`claim_date` parses and lies in the closed 180-day window ending at the
application date. -/
def claimCounted (app_date : Int) : JValue → Bool
  | .obj kvs =>
    (match parse_date_v ((jget kvs "claim_date").getD (.str "")) with
     | some cd =>
       decide (app_date - 180 * usecPerDay ≤ cd) && decide (cd ≤ app_date)
     | none => false)
  | _ => false

/-- Embedding of `services._calculate_recent_claims`: count the qualifying
entries; `-3` when the count is zero. -/
def _calculate_recent_claims (contracts : List JValue) (app_date : Int) : Int :=
  let claim_count := contracts.countP (claimCounted app_date)
  if claim_count > 0 then (claim_count : Int) else -3

/-! ## Disbursed-loan summation (services._calculate_disbursed_loans) -/

/-- Membership of a `dict.get('bank')` result in the excluded set
`{'LIZ', 'LOM', 'MKO', 'SUG', None}` — defined only for hashable values;
lists and dicts raise `TypeError` before this test and are handled by the
caller. -/
def bankExcluded : Option JValue → Bool
  | none => true
  | some .null => true
  | some (.str s) => s == "LIZ" || s == "LOM" || s == "MKO" || s == "SUG"
  | some _ => false

/-- The loop of `_calculate_disbursed_loans`: skip non-dicts, require a
truthy `contract_date`, test `bank` against the excluded set (raising
`TypeError` for unhashable list/dict values, exactly as Python's `in` on a
set does), require a truthy `loan_summa`, and add `float(loan_summa)` when
the conversion succeeds (conversion errors are caught and skipped). -/
def loansLoop : List JValue → ℚ → Except PyErr ℚ
  | [], acc => .ok acc
  | c :: rest, acc =>
    match c with
    | .obj kvs =>
      if pyTruthyOpt (jget kvs "contract_date") then
        match jget kvs "bank" with
        | some (.arr _) => .error .typeError
        | some (.obj _) => .error .typeError
        | bank =>
          if bankExcluded bank then loansLoop rest acc
          else if pyTruthyOpt (jget kvs "loan_summa") then
            match pyFloat ((jget kvs "loan_summa").getD .null) with
            | some q => loansLoop rest (qadd acc q)
            | none => loansLoop rest acc
          else loansLoop rest acc
      else loansLoop rest acc
    | _ => loansLoop rest acc

/-- Embedding of `services._calculate_disbursed_loans`: run the loop from
0 and replace a non-positive final sum by the sentinel `-1`. -/
def _calculate_disbursed_loans (contracts : List JValue) : Except PyErr ℚ :=
  (loansLoop contracts 0).map fun loan_sum =>
    if loan_sum > 0 then loan_sum else -1

/-! ## Days since last loan (services._calculate_days_since_last_loan) -/

/-- Qualification filter and parsed date of one entry of the
days-since-last-loan loop: a dict with truthy `contract_date` and truthy
`summa`, whose `contract_date` parses. -/
def qualDate : JValue → Option Int
  | .obj kvs =>
    if pyTruthyOpt (jget kvs "contract_date") && pyTruthyOpt (jget kvs "summa") then
      parse_date_v ((jget kvs "contract_date").getD .null)
    else none
  | _ => none

/-- The running-maximum loop of `_calculate_days_since_last_loan` (strict
`>` update: ties keep the first-seen date). -/
def lastLoanLoop : List JValue → Option Int → Option Int
  | [], acc => acc
  | c :: rest, acc =>
    match qualDate c with
    | some d =>
      (match acc with
       | none => lastLoanLoop rest (some d)
       | some m => lastLoanLoop rest (if d > m then some d else some m))
    | none => lastLoanLoop rest acc

/-- Embedding of `services._calculate_days_since_last_loan`:
`(app_date - last_loan_date).days` (Python's `timedelta.days` is the floor
of the difference in days) or `-1` when no entry qualifies. -/
def _calculate_days_since_last_loan (contracts : List JValue) (app_date : Int) : Int :=
  match lastLoanLoop contracts none with
  | some last => Int.fdiv (app_date - last) usecPerDay
  | none => -1

/-! ## Orchestration (services.calculate_features) -/

/-- Embedding of `services.calculate_features`.  `now` is the wall-clock
fallback used by `_parse_application_date`.  The decoded contracts value is
tested for truthiness (falsy gives the sentinel response); a truthy
non-iterable decode raises `TypeError` when the first reduction iterates
it; the three reductions are then computed in the order of the Python
dict literal (the loan summation is the only one that can itself raise). -/
def calculate_features (now : Int) (app_data : ApplicationData) :
    Except PyErr FeatureResponse :=
  let app_date := _parse_application_date now app_data.application_date
  let contracts := _parse_contracts app_data.contracts
  if pyTruthy contracts = false then
    .ok ⟨app_data.id, -3, -1, -1⟩
  else
    match pyIterate contracts with
    | none => .error .typeError
    | some lst =>
      let tot := _calculate_recent_claims lst app_date
      match _calculate_disbursed_loans lst with
      | .error e => .error e
      | .ok disb =>
        .ok ⟨app_data.id, tot, disb, _calculate_days_since_last_loan lst app_date⟩

/-! ## Specification-side definitions

These follow the words of the claims being checked (not the code); the
refinement theorems below compare them with the embedded code. -/

/-- Claim C4's filter, in its words: a mapping entry with a present
non-empty (truthy) `contract_date`, a `bank` that is neither absent/null
nor one of the four literal strings, and a present truthy `loan_summa`
convertible to a number. -/
def disbQualifies : JValue → Bool
  | .obj kvs =>
    pyTruthyOpt (jget kvs "contract_date")
      && !(jget kvs "bank").isNone
      && !(match jget kvs "bank" with | some .null => true | _ => false)
      && !(match jget kvs "bank" with
           | some (.str s) => s == "LIZ" || s == "LOM" || s == "MKO" || s == "SUG"
           | _ => false)
      && pyTruthyOpt (jget kvs "loan_summa")
      && (pyFloat ((jget kvs "loan_summa").getD .null)).isSome
  | _ => false

/-- Numeric value `float(loan_summa)` of a qualifying entry. -/
def loanValue : JValue → ℚ
  | .obj kvs => (pyFloat ((jget kvs "loan_summa").getD .null)).getD 0
  | _ => 0

/-- Claim C4's described result: the sum of `float(loan_summa)` over
exactly the qualifying entries, with a zero-or-negative sum replaced by
the sentinel `-1`. -/
def disb_spec (cs : List JValue) : ℚ :=
  let s := ((cs.filter disbQualifies).map loanValue).sum
  if s ≤ 0 then -1 else s

/-- An entry on which the Python loan summation raises `TypeError`: a
mapping with truthy `contract_date` whose `bank` value is an (unhashable)
list or dict. -/
def badBankEntry : JValue → Bool
  | .obj kvs =>
    pyTruthyOpt (jget kvs "contract_date")
      && (match jget kvs "bank" with
          | some (.arr _) => true
          | some (.obj _) => true
          | _ => false)
  | _ => false

/-- Claim C6's filter, in its words: a mapping with a non-empty (truthy)
`contract_date` and a *present* `summa` field (presence alone qualifies),
whose `contract_date` parses. -/
def qualDateClaim : JValue → Option Int
  | .obj kvs =>
    if pyTruthyOpt (jget kvs "contract_date") && (jget kvs "summa").isSome then
      parse_date_v ((jget kvs "contract_date").getD .null)
    else none
  | _ => none

/-- Claim C6's described result: the floor day difference from the maximum
qualifying contract date, or `-1` when none qualifies. -/
def days_since_spec (cs : List JValue) (app_date : Int) : Int :=
  match (cs.filterMap qualDateClaim).max? with
  | some m => Int.fdiv (app_date - m) usecPerDay
  | none => -1

/-- Amendment of `days_since_spec` forced by the code: `summa` must be
present *and truthy* (`contract.get('summa')` is a truthiness test, so
e.g. `summa = 0` disqualifies). -/
def days_since_amended (cs : List JValue) (app_date : Int) : Int :=
  match (cs.filterMap qualDate).max? with
  | some m => Int.fdiv (app_date - m) usecPerDay
  | none => -1

/-- Merge of an optional running maximum with an optional maximum. -/
def omax : Option Int → Option Int → Option Int
  | none, o => o
  | some m, none => some m
  | some m, some x => some (max m x)

/-! ## Concrete inputs used by witnesses and counterexamples -/

/-- The spec's rich scenario: one fully-populated contract dated
2024-01-01, application date 2024-01-02. -/
def scenarioInput : ApplicationData :=
  ⟨1234, "2024-01-02T00:00:00",
   some "[\x7b\"contract_date\":\"01.01.2024\",\"claim_date\":\"01.01.2024\",\"bank\":\"001\",\"loan_summa\":5000,\"summa\":5000\x7d]"⟩

/-- Contracts decoding to the Python int `5`, which is truthy but not
iterable. -/
def topLevelNumberInput : ApplicationData :=
  ⟨1234, "2024-01-01T00:00:00", some "5"⟩

/-- One qualifying contract dated a month *after* the application date. -/
def futureLoanInput : ApplicationData :=
  ⟨1234, "2024-01-01T00:00:00",
   some "[\x7b\"contract_date\":\"01.02.2024\",\"summa\":1\x7d]"⟩

/-- One qualifying contract dated exactly on the application date. -/
def sameDayLoanInput : ApplicationData :=
  ⟨1234, "2024-01-01T00:00:00",
   some "[\x7b\"contract_date\":\"01.01.2024\",\"summa\":1\x7d]"⟩

/-- Entry with a truthy `contract_date`, an unhashable `bank` (a list) and
a positive `loan_summa`. -/
def unhashableBankContract : JValue :=
  .obj [("contract_date", .str "01.01.2024"), ("bank", .arr []),
        ("loan_summa", .num 5000)]

/-- Entry with a present but falsy `summa` (`summa = 0`). -/
def zeroSummaContract : JValue :=
  .obj [("contract_date", .str "01.01.2024"), ("summa", .num 0)]

/-- One-entry contract family for the bank-exclusion claims: truthy
`contract_date`, the given `bank` string and the given `loan_summa`. -/
def bankContract (s : String) (q : ℚ) : JValue :=
  .obj [("contract_date", .str "01.01.2024"), ("bank", .str s),
        ("loan_summa", .num q)]

/-- A well-behaved contract list (no unhashable bank values). -/
def goodLoanList : List JValue :=
  [bankContract "001" 5000, bankContract "LIZ" 3000, .str "junk", .null]

/-! ## Helper lemmas -/

theorem filter_sum_qual (kvs : List (String × JValue)) (rest : List JValue) (q : ℚ)
    (hq : disbQualifies (.obj kvs) = true)
    (hfl : pyFloat ((jget kvs "loan_summa").getD .null) = some q) :
    ((((JValue.obj kvs) :: rest).filter disbQualifies).map loanValue).sum
      = q + ((rest.filter disbQualifies).map loanValue).sum := by
  simp [List.filter_cons, hq, loanValue, hfl]

theorem filter_skip (c : JValue) (rest : List JValue)
    (hq : disbQualifies c = false) :
    (((c :: rest).filter disbQualifies).map loanValue).sum
      = ((rest.filter disbQualifies).map loanValue).sum := by
  simp [List.filter_cons, hq]

theorem loansLoop_ok (cs : List JValue) (acc : ℚ)
    (h : ∀ c ∈ cs, badBankEntry c = false) :
    loansLoop cs acc = .ok (acc + ((cs.filter disbQualifies).map loanValue).sum) := by
  induction cs generalizing acc with
  | nil => simp [loansLoop]
  | cons c rest ih =>
    have hc : badBankEntry c = false := h c (by simp)
    have hrest : ∀ x ∈ rest, badBankEntry x = false := fun x hx => h x (by simp [hx])
    cases c with
    | obj kvs =>
      by_cases hcd : pyTruthyOpt (jget kvs "contract_date") = true
      · cases hbank : jget kvs "bank" with
        | none =>
          rw [show loansLoop (JValue.obj kvs :: rest) acc = loansLoop rest acc by
            simp [loansLoop, hbank, hcd, bankExcluded]]
          rw [ih _ hrest, filter_skip _ _ (by simp [disbQualifies, hbank])]
        | some bv =>
          cases bv with
          | arr xs => exfalso; simp [badBankEntry, hcd, hbank] at hc
          | obj o => exfalso; simp [badBankEntry, hcd, hbank] at hc
          | null =>
            rw [show loansLoop (JValue.obj kvs :: rest) acc = loansLoop rest acc by
              simp [loansLoop, hbank, hcd, bankExcluded]]
            rw [ih _ hrest, filter_skip _ _ (by simp [disbQualifies, hbank])]
          | str s =>
            by_cases hex : (s == "LIZ" || s == "LOM" || s == "MKO" || s == "SUG") = true
            · rw [show loansLoop (JValue.obj kvs :: rest) acc = loansLoop rest acc by
                simp [loansLoop, hbank, hcd, bankExcluded, hex]]
              rw [ih _ hrest, filter_skip _ _ (by simp [disbQualifies, hbank, hex])]
            · have hexf : bankExcluded (some (.str s)) = false := by
                simp only [bankExcluded]; simpa using hex
              by_cases hls : pyTruthyOpt (jget kvs "loan_summa") = true
              · cases hfl : pyFloat ((jget kvs "loan_summa").getD .null) with
                | some q =>
                  rw [show loansLoop (JValue.obj kvs :: rest) acc
                        = loansLoop rest (qadd acc q) by
                    simp [loansLoop, hbank, hcd, hexf, hls, hfl]]
                  rw [ih _ hrest, filter_sum_qual _ _ q
                    (by simp [disbQualifies, hbank, hcd, hls, hfl]; simpa using hex) hfl]
                  rw [qadd_eq]; ring_nf
                | none =>
                  rw [show loansLoop (JValue.obj kvs :: rest) acc = loansLoop rest acc by
                    simp [loansLoop, hbank, hcd, hexf, hls, hfl]]
                  rw [ih _ hrest, filter_skip _ _ (by simp [disbQualifies, hfl])]
              · have hlsf : pyTruthyOpt (jget kvs "loan_summa") = false := by simpa using hls
                rw [show loansLoop (JValue.obj kvs :: rest) acc = loansLoop rest acc by
                  simp [loansLoop, hbank, hcd, hexf, hlsf]]
                rw [ih _ hrest, filter_skip _ _ (by simp [disbQualifies, hlsf])]
          | bool b =>
            have hexf : bankExcluded (some (.bool b)) = false := rfl
            by_cases hls : pyTruthyOpt (jget kvs "loan_summa") = true
            · cases hfl : pyFloat ((jget kvs "loan_summa").getD .null) with
              | some q =>
                rw [show loansLoop (JValue.obj kvs :: rest) acc
                      = loansLoop rest (qadd acc q) by
                  simp [loansLoop, hbank, hcd, hexf, hls, hfl]]
                rw [ih _ hrest, filter_sum_qual _ _ q
                  (by simp [disbQualifies, hbank, hcd, hls, hfl]) hfl]
                rw [qadd_eq]; ring_nf
              | none =>
                rw [show loansLoop (JValue.obj kvs :: rest) acc = loansLoop rest acc by
                  simp [loansLoop, hbank, hcd, hexf, hls, hfl]]
                rw [ih _ hrest, filter_skip _ _ (by simp [disbQualifies, hfl])]
            · have hlsf : pyTruthyOpt (jget kvs "loan_summa") = false := by simpa using hls
              rw [show loansLoop (JValue.obj kvs :: rest) acc = loansLoop rest acc by
                simp [loansLoop, hbank, hcd, hexf, hlsf]]
              rw [ih _ hrest, filter_skip _ _ (by simp [disbQualifies, hlsf])]
          | num q0 =>
            have hexf : bankExcluded (some (.num q0)) = false := rfl
            by_cases hls : pyTruthyOpt (jget kvs "loan_summa") = true
            · cases hfl : pyFloat ((jget kvs "loan_summa").getD .null) with
              | some q =>
                rw [show loansLoop (JValue.obj kvs :: rest) acc
                      = loansLoop rest (qadd acc q) by
                  simp [loansLoop, hbank, hcd, hexf, hls, hfl]]
                rw [ih _ hrest, filter_sum_qual _ _ q
                  (by simp [disbQualifies, hbank, hcd, hls, hfl]) hfl]
                rw [qadd_eq]; ring_nf
              | none =>
                rw [show loansLoop (JValue.obj kvs :: rest) acc = loansLoop rest acc by
                  simp [loansLoop, hbank, hcd, hexf, hls, hfl]]
                rw [ih _ hrest, filter_skip _ _ (by simp [disbQualifies, hfl])]
            · have hlsf : pyTruthyOpt (jget kvs "loan_summa") = false := by simpa using hls
              rw [show loansLoop (JValue.obj kvs :: rest) acc = loansLoop rest acc by
                simp [loansLoop, hbank, hcd, hexf, hlsf]]
              rw [ih _ hrest, filter_skip _ _ (by simp [disbQualifies, hlsf])]
      · have hcdf : pyTruthyOpt (jget kvs "contract_date") = false := by simpa using hcd
        rw [show loansLoop (JValue.obj kvs :: rest) acc = loansLoop rest acc by
          simp [loansLoop, hcdf]]
        rw [ih _ hrest, filter_skip _ _ (by simp [disbQualifies, hcdf])]
    | null =>
      rw [show loansLoop (JValue.null :: rest) acc = loansLoop rest acc from rfl]
      rw [ih _ hrest, filter_skip _ _ (by simp [disbQualifies])]
    | bool b =>
      rw [show loansLoop (JValue.bool b :: rest) acc = loansLoop rest acc from rfl]
      rw [ih _ hrest, filter_skip _ _ (by simp [disbQualifies])]
    | num q =>
      rw [show loansLoop (JValue.num q :: rest) acc = loansLoop rest acc from rfl]
      rw [ih _ hrest, filter_skip _ _ (by simp [disbQualifies])]
    | str s =>
      rw [show loansLoop (JValue.str s :: rest) acc = loansLoop rest acc from rfl]
      rw [ih _ hrest, filter_skip _ _ (by simp [disbQualifies])]
    | arr xs =>
      rw [show loansLoop (JValue.arr xs :: rest) acc = loansLoop rest acc from rfl]
      rw [ih _ hrest, filter_skip _ _ (by simp [disbQualifies])]


theorem foldl_max_assoc (l : List Int) (a b : Int) :
    l.foldl max (max a b) = max a (l.foldl max b) := by
  induction l generalizing b with
  | nil => rfl
  | cons c l ih =>
    simp only [List.foldl_cons]
    rw [max_assoc, ih]

theorem omax_max? (l : List Int) (d : Int) :
    omax (some d) l.max? = some (l.foldl max d) := by
  cases l with
  | nil => rfl
  | cons e l =>
    rw [show (e :: l).max? = some (l.foldl max e) from rfl]
    show some (max d (l.foldl max e)) = some (l.foldl max (max d e))
    rw [foldl_max_assoc]

theorem lastLoanLoop_eq (cs : List JValue) (acc : Option Int) :
    lastLoanLoop cs acc = omax acc ((cs.filterMap qualDate).max?) := by
  induction cs generalizing acc with
  | nil => cases acc <;> rfl
  | cons c rest ih =>
    cases hq : qualDate c with
    | none =>
      have hfm : ((c :: rest).filterMap qualDate) = rest.filterMap qualDate := by
        simp [List.filterMap_cons, hq]
      rw [hfm, show lastLoanLoop (c :: rest) acc = lastLoanLoop rest acc by
        simp [lastLoanLoop, hq], ih]
    | some d =>
      have hfm : ((c :: rest).filterMap qualDate) = d :: rest.filterMap qualDate := by
        simp [List.filterMap_cons, hq]
      rw [hfm]
      rw [show (d :: rest.filterMap qualDate).max?
            = some ((rest.filterMap qualDate).foldl max d) from rfl]
      cases acc with
      | none =>
        have hstep : lastLoanLoop (c :: rest) none = lastLoanLoop rest (some d) := by
          simp [lastLoanLoop, hq]
        rw [hstep, ih, omax_max?]
        rfl
      | some m =>
        have hstep : lastLoanLoop (c :: rest) (some m)
            = lastLoanLoop rest (some (max m d)) := by
          have hmx : (if d > m then some d else some m) = some (max m d) := by
            by_cases h1 : d > m
            · rw [if_pos h1, max_eq_right (le_of_lt h1)]
            · rw [if_neg h1, max_eq_left (by omega)]
          simp only [lastLoanLoop, hq, hmx]
        rw [hstep, ih, omax_max?]
        show some _ = some (max m ((rest.filterMap qualDate).foldl max d))
        rw [← foldl_max_assoc]

/-- C6 (corrected): for every contract list and application date, the
embedded `_calculate_days_since_last_loan` returns exactly the day
difference from the maximum qualifying contract date (or `-1` when none
qualifies), where — amending the claim — a qualifying contract needs a
*truthy* `summa`, not merely a present one. -/
theorem C6_amended (cs : List JValue) (app_date : Int) :
    _calculate_days_since_last_loan cs app_date = days_since_amended cs app_date := by
  unfold _calculate_days_since_last_loan days_since_amended
  rw [lastLoanLoop_eq]
  rfl

theorem foldl_max_le (l : List Int) (a b : Int)
    (ha : a ≤ b) (h : ∀ x ∈ l, x ≤ b) : l.foldl max a ≤ b := by
  induction l generalizing a with
  | nil => exact ha
  | cons c l ih =>
    simp only [List.foldl_cons]
    exact ih _ (max_le ha (h c (by simp))) (fun x hx => h x (by simp [hx]))

theorem max?_le (l : List Int) (b M : Int)
    (h : ∀ x ∈ l, x ≤ b) (hM : l.max? = some M) : M ≤ b := by
  cases l with
  | nil => simp [List.max?] at hM
  | cons c l =>
    rw [show (c :: l).max? = some (l.foldl max c) from rfl] at hM
    cases hM
    exact foldl_max_le l c b (h c (by simp)) (fun x hx => h x (by simp [hx]))


theorem splitChar_no_sep (sep : Char) (xs : List Char) (h : sep ∉ xs) :
    splitChar sep xs = [xs] := by
  induction xs with
  | nil => rfl
  | cons c rest ih =>
    have hcs : ¬ c = sep := fun hc => h (by simp [hc])
    have hr : sep ∉ rest := fun hr => h (by simp [hr])
    rw [show splitChar sep (c :: rest)
          = (match splitChar sep rest with
             | [] => [[c]]
             | h :: t => (c :: h) :: t) by
      simp [splitChar, hcs]]
    rw [ih hr]

theorem splitChar_append (sep : Char) (xs ys : List Char) (h : sep ∉ xs) :
    splitChar sep (xs ++ sep :: ys) = xs :: splitChar sep ys := by
  induction xs with
  | nil =>
    simp only [List.nil_append]
    simp [splitChar]
  | cons c rest ih =>
    have hcs : ¬ c = sep := fun hc => h (by simp [hc])
    have hr : sep ∉ rest := fun hr => h (by simp [hr])
    simp only [List.cons_append]
    rw [show splitChar sep (c :: (rest ++ sep :: ys))
          = (match splitChar sep (rest ++ sep :: ys) with
             | [] => [[c]]
             | h :: t => (c :: h) :: t) by
      simp [splitChar, hcs]]
    rw [ih hr]

theorem splitChar_length (sep : Char) (cs : List Char) :
    (splitChar sep cs).length = cs.count sep + 1 := by
  induction cs with
  | nil => rfl
  | cons c rest ih =>
    by_cases hc : c = sep
    · subst hc
      rw [show splitChar c (c :: rest) = [] :: splitChar c rest by simp [splitChar]]
      simp [List.count_cons, ih]
    · rw [show splitChar sep (c :: rest)
            = (match splitChar sep rest with
               | [] => [[c]]
               | h :: t => (c :: h) :: t) by
        simp [splitChar, hc]]
      have h1 : (splitChar sep rest).length = rest.count sep + 1 := ih
      cases hsp : splitChar sep rest with
      | nil => rw [hsp] at h1; simp at h1
      | cons a t =>
        rw [hsp] at h1
        simp only [List.length_cons] at h1 ⊢
        rw [List.count_cons]
        simp [hc, h1]

theorem allDigits_no_dash (xs : List Char) (h : allDigits xs = true) : '-' ∉ xs := by
  intro hm
  have := List.all_eq_true.mp h _ hm
  simp [isDigitChar, Char.isDigit] at this

theorem strptimeYmd_long (cs : List Char) (h : 3 ≤ cs.count '-') :
    strptimeYmd cs = none := by
  unfold strptimeYmd
  have hlen : (splitChar '-' cs).length = cs.count '-' + 1 := splitChar_length _ _
  match hsp : splitChar '-' cs with
  | [] => rfl
  | [a] => rfl
  | [a, b] => rfl
  | [a, b, c] => rw [hsp] at hlen; simp at hlen; omega
  | a :: b :: c :: d :: t => rfl

theorem count_reassembled (yy mm dd : List Char) :
    (yy ++ '-' :: (mm ++ '-' :: dd)).count '-'
      = yy.count '-' + mm.count '-' + dd.count '-' + 2 := by
  simp only [List.count_append, List.count_cons, beq_self_eq_true, if_true]
  omega

theorem strptimeYmd_parts (yy mm dd : List Char) :
    strptimeYmd (yy ++ '-' :: (mm ++ '-' :: dd))
      = (matchYear4 yy).bind fun y =>
          (matchMonthPart mm).bind fun m =>
            (matchDayPart dd).map fun d => (y, m, d) := by
  by_cases hy : '-' ∈ yy
  · have hyn : matchYear4 yy = none := by
      unfold matchYear4
      rw [if_neg]
      intro hcon
      exact allDigits_no_dash yy hcon.2 hy
    rw [strptimeYmd_long _ (by
      rw [count_reassembled]
      have := List.one_le_count_iff.mpr hy
      omega)]
    rw [hyn]
    rfl
  · by_cases hm : '-' ∈ mm
    · have hmn : matchMonthPart mm = none := by
        unfold matchMonthPart
        rw [if_neg]
        intro hcon
        exact allDigits_no_dash mm hcon.2.1 hm
      rw [strptimeYmd_long _ (by
        rw [count_reassembled]
        have := List.one_le_count_iff.mpr hm
        omega)]
      cases matchYear4 yy with
      | none => rfl
      | some y => simp [hmn]
    · by_cases hd : '-' ∈ dd
      · have hdn : matchDayPart dd = none := by
          unfold matchDayPart
          rw [if_neg]
          intro hcon
          exact allDigits_no_dash dd hcon.2.1 hd
        rw [strptimeYmd_long _ (by
          rw [count_reassembled]
          have := List.one_le_count_iff.mpr hd
          omega)]
        cases matchYear4 yy with
        | none => rfl
        | some y =>
          cases matchMonthPart mm with
          | none => simp
          | some m => simp [hdn]
      · unfold strptimeYmd
        rw [splitChar_append _ _ _ hy, splitChar_append _ _ _ hm,
          splitChar_no_sep _ _ hd]

theorem monthLen_le (y m : Nat) : monthLen y m ≤ 31 := by
  unfold monthLen
  split_ifs <;> norm_num

theorem parse_date_key (dd mm yy : List Char) :
    (match strptimeYmd (yy ++ '-' :: (mm ++ '-' :: dd)) with
     | some (y, m, d) =>
       if 1 ≤ y ∧ d ≤ monthLen y m then some (usecOfDate y m d) else none
     | none => none)
    = (if allDigits dd ∧ (dd.length = 1 ∨ dd.length = 2)
          ∧ allDigits mm ∧ (mm.length = 1 ∨ mm.length = 2)
          ∧ allDigits yy ∧ yy.length = 4
          ∧ validCalendar (digitsVal yy) (digitsVal mm) (digitsVal dd) then
        some (usecOfDate (digitsVal yy) (digitsVal mm) (digitsVal dd))
      else none) := by
  rw [strptimeYmd_parts]
  unfold matchYear4 matchMonthPart matchDayPart
  by_cases h1 : yy.length = 4 ∧ allDigits yy = true
  · rw [if_pos h1]
    by_cases h2 : (mm.length = 1 ∨ mm.length = 2) ∧ allDigits mm = true
        ∧ 1 ≤ digitsVal mm ∧ digitsVal mm ≤ 12
    · rw [if_pos h2]
      by_cases h3 : (dd.length = 1 ∨ dd.length = 2) ∧ allDigits dd = true
          ∧ 1 ≤ digitsVal dd ∧ digitsVal dd ≤ 31
      · rw [if_pos h3]
        show (if 1 ≤ digitsVal yy
                ∧ digitsVal dd ≤ monthLen (digitsVal yy) (digitsVal mm) then
              some (usecOfDate (digitsVal yy) (digitsVal mm) (digitsVal dd))
              else none) = _
        by_cases h4 : 1 ≤ digitsVal yy
            ∧ digitsVal dd ≤ monthLen (digitsVal yy) (digitsVal mm)
        · rw [if_pos h4, if_pos
            ⟨h3.2.1, h3.1, h2.2.1, h2.1, h1.2, h1.1,
             h4.1, h2.2.2.1, h2.2.2.2, h3.2.2.1, h4.2⟩]
        · rw [if_neg h4,
            if_neg (fun hc => h4 ⟨hc.2.2.2.2.2.2.1, hc.2.2.2.2.2.2.2.2.2.2⟩)]
      · rw [if_neg h3]
        show none = _
        rw [if_neg (fun hc => h3 ⟨hc.2.1, hc.1, hc.2.2.2.2.2.2.2.2.2.1,
          le_trans hc.2.2.2.2.2.2.2.2.2.2 (monthLen_le _ _)⟩)]
    · rw [if_neg h2]
      show none = _
      rw [if_neg (fun hc => h2 ⟨hc.2.2.2.1, hc.2.2.1,
        hc.2.2.2.2.2.2.2.1, hc.2.2.2.2.2.2.2.2.1⟩)]
  · rw [if_neg h1]
    show none = _
    rw [if_neg (fun hc => h1 ⟨hc.2.2.2.2.2.1, hc.2.2.2.2.1⟩)]

/-- C7 (corrected): `parse_date` behaves exactly as the claim describes
once the claim is amended to require a four-digit year part and one- or
two-digit day and month parts: unparseable exactly for empty input, a
split not giving 3 parts, or parts outside that digit format or not
forming a valid calendar date; midnight of the date otherwise. -/
theorem C7_amended (s : String) :
    parse_date s = parse_date_amended s := by
  unfold parse_date parse_date_amended
  by_cases he : s.data.isEmpty = true
  · rw [if_pos he, if_pos he]
  · rw [if_neg he, if_neg he]
    cases hsp : splitChar '.' s.data with
    | nil => rfl
    | cons p1 t1 =>
      cases t1 with
      | nil => rfl
      | cons p2 t2 =>
        cases t2 with
        | nil => rfl
        | cons p3 t3 =>
          cases t3 with
          | nil => exact parse_date_key p1 p2 p3
          | cons p4 t4 => rfl


/-! ## Claims -/

theorem _parse_contracts_some (s : String) :
    _parse_contracts (some s)
      = if s.data.isEmpty = true then JValue.arr []
        else
          match json_loads s with
          | some v => v
          | none => JValue.arr [] := rfl

theorem calculate_features_ok_of (now : Int) (a : ApplicationData)
    (lst : List JValue) (q : ℚ)
    (ht : pyTruthy (_parse_contracts a.contracts) = true)
    (hit : pyIterate (_parse_contracts a.contracts) = some lst)
    (hd : _calculate_disbursed_loans lst = .ok q) :
    calculate_features now a
      = .ok ⟨a.id,
          _calculate_recent_claims lst (_parse_application_date now a.application_date),
          q,
          _calculate_days_since_last_loan lst (_parse_application_date now a.application_date)⟩ := by
  simp [calculate_features, ht, hit, hd]

/-- C1 (counterexample): the claim that `calculate_features` never raises
is false as stated: for `contracts = "5"` the decoded value is the truthy,
non-iterable Python int 5, and iterating it raises `TypeError`. -/
theorem C1_counterexample :
    calculate_features 0 topLevelNumberInput = .error .typeError
      ∧ ∀ r : FeatureResponse, calculate_features 0 topLevelNumberInput ≠ .ok r := by
  refine ⟨by decide, fun r h => ?_⟩
  rw [show calculate_features 0 topLevelNumberInput = .error .typeError from by decide] at h
  exact Except.noConfusion h

/-- C1 (corrected): `calculate_features` returns a `FeatureResponse` and
never raises, for every id, application date and contracts value —
amended: provided that the decoded contracts value, when truthy, is
iterable (a JSON array, string or object), and that no decoded entry is a
mapping with a truthy `contract_date` and an unhashable (array/object)
`bank` value.  All other malformed dates, unparseable JSON and dirty
entries degrade to sentinels or skipped entries. -/
theorem C1_amended (now : Int) (a : ApplicationData)
    (h1 : pyTruthy (_parse_contracts a.contracts) = true →
      (pyIterate (_parse_contracts a.contracts)).isSome = true)
    (h2 : ∀ c ∈ (pyIterate (_parse_contracts a.contracts)).getD [],
      badBankEntry c = false) :
    ∃ r, calculate_features now a = .ok r := by
  by_cases ht : pyTruthy (_parse_contracts a.contracts) = false
  · refine ⟨⟨a.id, -3, -1, -1⟩, ?_⟩
    simp [calculate_features, ht]
  · have ht' : pyTruthy (_parse_contracts a.contracts) = true := by
      cases hb : pyTruthy (_parse_contracts a.contracts)
      · exact absurd hb ht
      · rfl
    cases hit : pyIterate (_parse_contracts a.contracts) with
    | none =>
      have hs := h1 ht'
      rw [hit] at hs
      simp at hs
    | some lst =>
      have hbad : ∀ c ∈ lst, badBankEntry c = false := by
        rw [hit] at h2
        simpa using h2
      have hd : _calculate_disbursed_loans lst
          = .ok (if (0 + ((lst.filter disbQualifies).map loanValue).sum : ℚ) > 0
                 then (0 + ((lst.filter disbQualifies).map loanValue).sum : ℚ)
                 else -1) := by
        unfold _calculate_disbursed_loans
        rw [loansLoop_ok lst 0 hbad]
        rfl
      exact ⟨_, calculate_features_ok_of now a lst _ ht' hit hd⟩

/-- Witness for `C1_amended` at the spec's fully-populated scenario. -/
theorem C1_amended_witness :
    ∃ r, calculate_features 0 scenarioInput = .ok r :=
  C1_amended 0 scenarioInput (by decide) (by decide)

/-- C2 (confirmed): for every id, every application date and every
`contracts` that is null, the empty string, the string "[]" or any string
that is not valid JSON, `calculate_features` returns exactly the sentinel
triple `(-3, -1, -1)` together with the input id. -/
theorem C2_sentinel_triple (now : Int) (idv : ℚ) (ad : String) (ct : Option String)
    (h : ct = none ∨ ct = some "" ∨ ct = some "[]"
      ∨ ∃ s, ct = some s ∧ json_loads s = none) :
    calculate_features now ⟨idv, ad, ct⟩ = .ok ⟨idv, -3, -1, -1⟩ := by
  have harr : _parse_contracts ct = .arr [] := by
    rcases h with h | h | h | ⟨s, hs, hj⟩
    · subst h; rfl
    · subst h; rfl
    · subst h; rfl
    · subst hs
      rw [_parse_contracts_some]
      by_cases he : s.data.isEmpty = true
      · rw [if_pos he]
      · rw [if_neg he, hj]
  simp only [calculate_features, harr]
  rfl

/-- Witness for `C2_sentinel_triple` at `contracts = "not valid json"`. -/
theorem C2_witness :
    calculate_features 0 ⟨1234, "2024-01-01T00:00:00", some "not valid json"⟩
      = .ok ⟨1234, -3, -1, -1⟩ :=
  C2_sentinel_triple 0 1234 "2024-01-01T00:00:00" (some "not valid json")
    (Or.inr (Or.inr (Or.inr ⟨"not valid json", rfl, rfl⟩)))

/-- C3 (counterexample): `day_sinlastloan` is not always non-negative or
`-1`: a qualifying contract dated one month after the application date
yields `-31`. -/
theorem C3_counterexample :
    (calculate_features 0 futureLoanInput).map (fun r => r.day_sinlastloan)
        = .ok (-31)
      ∧ ¬ (0 ≤ (-31 : Int) ∨ (-31 : Int) = -1) :=
  ⟨by decide, by decide⟩

/-- C3 (corrected): `day_sinlastloan` as computed by
`_calculate_days_since_last_loan` is a non-negative day count or exactly
`-1` — amended: provided every qualifying contract date is no later than
the application date; future-dated contracts produce other negative
values. -/
theorem C3_amended (cs : List JValue) (app_date : Int)
    (h : ∀ c ∈ cs, ∀ d, qualDate c = some d → d ≤ app_date) :
    0 ≤ _calculate_days_since_last_loan cs app_date
      ∨ _calculate_days_since_last_loan cs app_date = -1 := by
  unfold _calculate_days_since_last_loan
  rw [lastLoanLoop_eq]
  cases hmax : (cs.filterMap qualDate).max? with
  | none => exact Or.inr rfl
  | some M =>
    left
    show 0 ≤ Int.fdiv (app_date - M) usecPerDay
    apply Int.fdiv_nonneg
    · have hM : M ≤ app_date := by
        apply max?_le _ app_date M _ hmax
        intro x hx
        obtain ⟨c, hc, hq⟩ := List.mem_filterMap.mp hx
        exact h c hc x hq
      omega
    · norm_num [usecPerDay]

/-- Witness for `C3_amended`: one past-dated qualifying contract. -/
theorem C3_amended_witness :
    0 ≤ _calculate_days_since_last_loan
          [JValue.obj [("contract_date", JValue.str "01.01.2024"), ("summa", JValue.num 1)]]
          (usecOfDate 2024 1 10)
      ∨ _calculate_days_since_last_loan
          [JValue.obj [("contract_date", JValue.str "01.01.2024"), ("summa", JValue.num 1)]]
          (usecOfDate 2024 1 10) = -1 := by
  apply C3_amended
  intro c hc d hq
  simp only [List.mem_singleton] at hc
  subst hc
  rw [show qualDate (JValue.obj [("contract_date", JValue.str "01.01.2024"),
        ("summa", JValue.num 1)]) = some (usecOfDate 2024 1 1) from by decide] at hq
  injection hq with hh
  subst hh
  decide

/-- C4 (counterexample): the claim that `_calculate_disbursed_loans`
always returns the filtered sum is false as stated: an entry with truthy
`contract_date`, an unhashable list `bank` and a positive `loan_summa`
makes the Python set-membership test raise `TypeError`, while the claim
prescribes the sum 5000. -/
theorem C4_counterexample :
    _calculate_disbursed_loans [unhashableBankContract] = .error .typeError
      ∧ disb_spec [unhashableBankContract] = 5000 := by
  constructor
  · decide
  · unfold disb_spec
    rw [show ([unhashableBankContract].filter disbQualifies).map loanValue
          = [(5000 : ℚ)] from rfl]
    rw [show ([(5000 : ℚ)]).sum = 5000 by simp]
    norm_num

/-- C4 (corrected): `_calculate_disbursed_loans` returns the sum of
`float(loan_summa)` over exactly the entries that are mappings with a
present truthy `contract_date`, a `bank` neither absent/null nor one of
"LIZ"/"LOM"/"MKO"/"SUG", and a present truthy numeric-convertible
`loan_summa`, replacing a zero-or-negative sum by `-1` — amended:
provided no mapping entry has a truthy `contract_date` together with an
unhashable (array/object) `bank` value, which instead raises
`TypeError`. -/
theorem C4_amended (cs : List JValue)
    (h : ∀ c ∈ cs, badBankEntry c = false) :
    _calculate_disbursed_loans cs = .ok (disb_spec cs) := by
  unfold _calculate_disbursed_loans disb_spec
  rw [loansLoop_ok cs 0 h]
  show Except.ok
      (if (0 + ((cs.filter disbQualifies).map loanValue).sum : ℚ) > 0
       then (0 + ((cs.filter disbQualifies).map loanValue).sum : ℚ) else -1) = _
  rw [zero_add]
  by_cases hs : ((cs.filter disbQualifies).map loanValue).sum ≤ 0
  · rw [if_neg (not_lt.mpr hs), if_pos hs]
  · rw [if_pos (not_le.mp hs), if_neg hs]

/-- Witness for `C4_amended` on a mixed well-behaved list (normal bank,
excluded bank, non-mapping entries). -/
theorem C4_amended_witness :
    _calculate_disbursed_loans goodLoanList = .ok (disb_spec goodLoanList) :=
  C4_amended goodLoanList (by decide)

/-- C5 (confirmed): for every application date and mapping entry whose
`claim_date` parses, the per-entry predicate of the recent-claims counter
counts the entry exactly when its claim date lies in the closed window
`[application_date - 180 days, application_date]`. -/
theorem C5_window (app_date : Int) (kvs : List (String × JValue)) (d : Int)
    (h : parse_date_v ((jget kvs "claim_date").getD (.str "")) = some d) :
    claimCounted app_date (.obj kvs) = true
      ↔ (app_date - 180 * usecPerDay ≤ d ∧ d ≤ app_date) := by
  rw [show claimCounted app_date (.obj kvs)
        = (match parse_date_v ((jget kvs "claim_date").getD (.str "")) with
           | some cd =>
             decide (app_date - 180 * usecPerDay ≤ cd) && decide (cd ≤ app_date)
           | none => false) from rfl,
      h]
  simp [Bool.and_eq_true, decide_eq_true_iff]

/-- Witness for `C5_window` at the boundaries: a claim dated exactly 180
days before the application date counts; one dated 181 days before does
not. -/
theorem C5_witness :
    claimCounted (usecOfDate 2024 1 21)
        (.obj [("claim_date", JValue.str "25.07.2023")]) = true
      ∧ claimCounted (usecOfDate 2024 1 21)
          (.obj [("claim_date", JValue.str "24.07.2023")]) = false :=
  ⟨(C5_window (usecOfDate 2024 1 21) [("claim_date", JValue.str "25.07.2023")]
      (usecOfDate 2023 7 25) rfl).mpr (by decide),
   by decide⟩

/-- C6 (counterexample): presence of `summa` alone does not qualify a
contract: with `summa = 0` (present but falsy) the code returns `-1`
while the claim prescribes the day difference 9. -/
theorem C6_counterexample :
    _calculate_days_since_last_loan [zeroSummaContract] (usecOfDate 2024 1 10) = -1
      ∧ days_since_spec [zeroSummaContract] (usecOfDate 2024 1 10) = 9 :=
  ⟨by decide, by decide⟩

/-- C7 (counterexample): the claim that only empty input, wrong part
count or invalid calendar values are unparseable is false: "01.01.23" is
a valid calendar date (year 23) yet `parse_date` rejects it, because the
underlying `strptime("%Y-...")` requires a four-digit year. -/
theorem C7_counterexample :
    parse_date "01.01.23" = none
      ∧ parse_date_claim "01.01.23" = some (usecOfDate 23 1 1)
      ∧ parse_date "01.01.23" ≠ parse_date_claim "01.01.23" :=
  ⟨rfl, by decide, by decide⟩

theorem recent_claims_ne_zero (lst : List JValue) (d : Int) :
    _calculate_recent_claims lst d ≠ 0 := by
  unfold _calculate_recent_claims
  by_cases hc : lst.countP (claimCounted d) > 0
  · rw [if_pos hc]
    exact Int.natCast_ne_zero.mpr (Nat.pos_iff_ne_zero.mp hc)
  · rw [if_neg hc]
    norm_num

theorem disb_ok_ne_zero (lst : List JValue) (q : ℚ)
    (h : _calculate_disbursed_loans lst = .ok q) : q ≠ 0 := by
  unfold _calculate_disbursed_loans at h
  cases hl : loansLoop lst 0 with
  | error e => rw [hl] at h; exact Except.noConfusion h
  | ok s =>
    rw [hl] at h
    have hq : q = if s > 0 then s else -1 := (Except.ok.inj h).symm
    rw [hq]
    by_cases hs : s > 0
    · rw [if_pos hs]; exact ne_of_gt hs
    · rw [if_neg hs]; norm_num

/-- C8 (confirmed): no returned response has `tot_claim_cnt_l180d = 0`
or `disb_bank_loan_wo_tbc = 0`, while a qualifying contract dated exactly
on the application date gives `day_sinlastloan = 0`. -/
theorem C8_nonzero :
    (∀ (now : Int) (a : ApplicationData) (r : FeatureResponse),
        calculate_features now a = .ok r →
          r.tot_claim_cnt_l180d ≠ 0 ∧ r.disb_bank_loan_wo_tbc ≠ 0)
      ∧ (calculate_features 0 sameDayLoanInput).map (fun r => r.day_sinlastloan)
          = .ok 0 := by
  constructor
  · intro now a r h
    rw [show calculate_features now a
          = (if pyTruthy (_parse_contracts a.contracts) = false then
              .ok ⟨a.id, -3, -1, -1⟩
             else
              match pyIterate (_parse_contracts a.contracts) with
              | none => .error .typeError
              | some lst =>
                match _calculate_disbursed_loans lst with
                | .error e => .error e
                | .ok disb =>
                  .ok ⟨a.id,
                    _calculate_recent_claims lst
                      (_parse_application_date now a.application_date),
                    disb,
                    _calculate_days_since_last_loan lst
                      (_parse_application_date now a.application_date)⟩) from rfl] at h
    by_cases ht : pyTruthy (_parse_contracts a.contracts) = false
    · rw [if_pos ht] at h
      have hr := Except.ok.inj h
      subst hr
      exact ⟨by norm_num, by norm_num⟩
    · rw [if_neg ht] at h
      cases hit : pyIterate (_parse_contracts a.contracts) with
      | none => rw [hit] at h; exact Except.noConfusion h
      | some lst =>
        rw [hit] at h
        have hm : (match _calculate_disbursed_loans lst with
            | Except.error e => (Except.error e : Except PyErr FeatureResponse)
            | Except.ok disb =>
              Except.ok ⟨a.id,
                _calculate_recent_claims lst
                  (_parse_application_date now a.application_date),
                disb,
                _calculate_days_since_last_loan lst
                  (_parse_application_date now a.application_date)⟩)
            = Except.ok r := h
        cases hd : _calculate_disbursed_loans lst with
        | error e => rw [hd] at hm; exact Except.noConfusion hm
        | ok disb =>
          rw [hd] at hm
          have hr := Except.ok.inj hm
          subst hr
          exact ⟨recent_claims_ne_zero lst _, disb_ok_ne_zero lst disb hd⟩
  · rfl

/-- Witness for the hypothesis-bearing part of `C8_nonzero`, at the
empty-contracts input. -/
theorem C8_witness :
    ((⟨1234, -3, -1, -1⟩ : FeatureResponse).tot_claim_cnt_l180d ≠ 0
      ∧ (⟨1234, -3, -1, -1⟩ : FeatureResponse).disb_bank_loan_wo_tbc ≠ 0) :=
  C8_nonzero.1 0 ⟨1234, "2024-01-01T00:00:00", none⟩ ⟨1234, -3, -1, -1⟩ rfl

/-- C9 (confirmed): when the application date parses as ISO-8601 (after
the `Z` normalisation), `calculate_features` does not depend on the
wall-clock fallback, so two invocations on the same input agree. -/
theorem C9_determinism (n1 n2 : Int) (a : ApplicationData)
    (h : (parse_iso (replaceZ a.application_date.data)).isSome = true) :
    calculate_features n1 a = calculate_features n2 a := by
  obtain ⟨dt, hdt⟩ := Option.isSome_iff_exists.mp h
  simp only [calculate_features, _parse_application_date, hdt]

/-- Witness for `C9_determinism` with two different clock values. -/
theorem C9_witness :
    calculate_features 0 ⟨1234, "2024-01-01T00:00:00", none⟩
      = calculate_features 123456789 ⟨1234, "2024-01-01T00:00:00", none⟩ :=
  C9_determinism 0 123456789 ⟨1234, "2024-01-01T00:00:00", none⟩ (by decide)

/-- C10 (confirmed): the bank exclusion is an exact, case-sensitive
string membership test: an otherwise qualifying single contract
contributes its positive `loan_summa` exactly when its bank string is not
one of the four exact literals (so "liz", "Liz" or "LIZ " all
contribute). -/
theorem C10_exact_bank (s : String) (q : ℚ) (hq : 0 < q) :
    _calculate_disbursed_loans [bankContract s q] = .ok q
      ↔ s ∉ (["LIZ", "LOM", "MKO", "SUG"] : List String) := by
  have hstep : loansLoop [bankContract s q] 0
      = (if bankExcluded (some (JValue.str s)) = true then Except.ok 0
         else if pyTruthy (JValue.num q) = true then Except.ok (qadd 0 q)
         else Except.ok 0) := rfl
  have htr : pyTruthy (JValue.num q) = true := by
    simp only [pyTruthy, bne_iff_ne]
    exact ne_of_gt hq
  unfold _calculate_disbursed_loans
  rw [hstep, htr]
  by_cases hmem : s ∈ (["LIZ", "LOM", "MKO", "SUG"] : List String)
  · have hex : bankExcluded (some (JValue.str s)) = true := by
      simp only [List.mem_cons, List.not_mem_nil, or_false] at hmem
      rcases hmem with rfl | rfl | rfl | rfl <;> rfl
    rw [if_pos hex]
    apply iff_of_false
    · intro hl
      have h0 : (if (0 : ℚ) > 0 then (0 : ℚ) else -1) = q := Except.ok.inj hl
      rw [if_neg (by norm_num)] at h0
      have : (0 : ℚ) < -1 := h0 ▸ hq
      norm_num at this
    · simp [hmem]
  · have hex : bankExcluded (some (JValue.str s)) = false := by
      simp only [List.mem_cons, List.not_mem_nil, or_false, not_or] at hmem
      obtain ⟨h1, h2, h3, h4⟩ := hmem
      simp only [bankExcluded, Bool.or_eq_false_iff, beq_eq_false_iff_ne, ne_eq]
      exact ⟨⟨⟨h1, h2⟩, h3⟩, h4⟩
    rw [if_neg (by rw [hex]; exact Bool.false_ne_true)]
    apply iff_of_true
    · show Except.ok (if qadd 0 q > 0 then qadd 0 q else -1) = Except.ok q
      rw [qadd_eq, zero_add, if_pos hq]
    · exact hmem

/-- Witness for `C10_exact_bank` at the whitespace-padded bank "LIZ ". -/
theorem C10_witness :
    _calculate_disbursed_loans [bankContract "LIZ " 5000] = .ok 5000 :=
  (C10_exact_bank "LIZ " 5000 (by norm_num)).mpr (by decide)

end ContractFeatures
